import Mathlib

set_option maxRecDepth 20000

/-!
Verification of the cell-accumulation and compile-trigger logic of
`elm_kernel/kernel.py` (a Jupyter kernel that accumulates Elm cells and
compiles them with `elm-make` on demand).

The embedding models:
  * Python line iteration over a cell's text (`io.StringIO` iteration:
    lines keep their trailing newline character) — `linesKE`;
  * the trigger `_should_compile` (a `deque` of maximal length 1 over the
    lines keeps only the LAST line, which is compared to the literal
    marker `-- compile-code`);
  * the per-request state machine `do_execute` with its pending-cell
    buffer, the compile pipeline `_compile` with its manifest-copy step,
    scratch files, subprocess outcomes and emitted display messages.
-/

/-- Lines of a character list exactly as Python file or StringIO iteration
yields them: the text is split after each newline character, every line keeps
its trailing newline, a final fragment without a newline is kept as a line of
its own, and the empty text yields no lines. -/
def linesKE : List Char → List (List Char)
  | [] => []
  | c :: cs =>
    if c = '\n' then ['\n'] :: linesKE cs
    else
      match linesKE cs with
      | [] => [[c]]
      | l :: ls => (c :: l) :: ls

theorem linesKE_nil : linesKE [] = [] := rfl

theorem linesKE_eq_nil_iff (cs : List Char) : linesKE cs = [] ↔ cs = [] := by
  cases cs with
  | nil => simp [linesKE]
  | cons c cs =>
    simp only [linesKE]
    split
    · simp
    · split <;> simp

theorem linesKE_mem_ne_nil (cs : List Char) : ∀ l ∈ linesKE cs, l ≠ [] := by
  induction cs with
  | nil => simp [linesKE]
  | cons c cs ih =>
    intro l hl
    simp only [linesKE] at hl
    split at hl
    · rcases List.mem_cons.mp hl with h | h
      · simp [h]
      · exact ih l h
    · rename_i hmatch
      split at hl
      · rcases List.mem_cons.mp hl with h | h
        · simp [h]
        · simp at h
      · rename_i m ms hms
        rcases List.mem_cons.mp hl with h | h
        · simp [h]
        · exact ih l (by rw [hms]; exact List.mem_cons_of_mem m h)

/-- Effect of appending one character to an already line-split text: the new
character starts a fresh line when the text so far is empty or its last line
is newline-terminated, and extends the last line otherwise. -/
def snocLine : List (List Char) → Char → List (List Char)
  | [], c => [[c]]
  | [l], c => if l.getLast? = some '\n' then [l, [c]] else [l ++ [c]]
  | l :: l' :: ls, c => l :: snocLine (l' :: ls) c

theorem snocLine_ne_nil (lss : List (List Char)) (c : Char) : snocLine lss c ≠ [] := by
  match lss with
  | [] => simp [snocLine]
  | [l] => simp only [snocLine]; split <;> simp
  | l :: l' :: ls => simp [snocLine]

theorem linesKE_concat (cs : List Char) (c : Char) :
    linesKE (cs ++ [c]) = snocLine (linesKE cs) c := by
  induction cs with
  | nil =>
    by_cases hc : c = '\n' <;> simp [linesKE, snocLine, hc]
  | cons d ds ih =>
    show linesKE (d :: (ds ++ [c])) = snocLine (linesKE (d :: ds)) c
    by_cases hd : d = '\n'
    · subst hd
      simp only [linesKE, if_pos rfl]
      rw [ih]
      cases hds : linesKE ds with
      | nil =>
        simp [snocLine]
      | cons m ms =>
        simp [snocLine]
    · simp only [linesKE, if_neg hd]
      rw [ih]
      cases hds : linesKE ds with
      | nil =>
        have : snocLine ([] : List (List Char)) c = [[c]] := rfl
        rw [this]
        simp only [snocLine]
        have hne : ¬ ([d].getLast? = some '\n') := by
          simp [List.getLast?]
          exact hd
        rw [if_neg hne]
        rfl
      | cons m ms =>
        have hm : m ≠ [] := linesKE_mem_ne_nil ds m (by rw [hds]; exact List.mem_cons_self m ms)
        cases ms with
        | nil =>
          simp only [snocLine]
          cases m with
          | nil => exact absurd rfl hm
          | cons a m' =>
            rw [List.getLast?_cons_cons]
            by_cases hml : (a :: m').getLast? = some '\n'
            · simp only [if_pos hml]
            · simp only [if_neg hml]
              rfl
        | cons m2 ms2 =>
          simp [snocLine]

theorem snocLine_getLast? (lss : List (List Char)) (c : Char) :
    (snocLine lss c).getLast? =
      some (match lss.getLast? with
            | none => [c]
            | some l => if l.getLast? = some '\n' then [c] else l ++ [c]) := by
  induction lss with
  | nil => simp [snocLine]
  | cons l ls ih =>
    cases ls with
    | nil =>
      simp only [snocLine]
      split <;> simp_all
    | cons l2 ls2 =>
      show (l :: snocLine (l2 :: ls2) c).getLast? = _
      cases hX : snocLine (l2 :: ls2) c with
      | nil => exact absurd hX (snocLine_ne_nil _ _)
      | cons x xs =>
        rw [List.getLast?_cons_cons]
        rw [← hX, ih]
        rw [List.getLast?_cons_cons]

/-- Suffix of a text strictly after its final newline character (the whole
text when it contains no newline, empty when it ends with a newline). This is
an independent, spec-style description of "the last line", used to state what
the trigger evaluator actually compares against the marker. -/
def lastLineAmended (cs : List Char) : List Char :=
  (cs.reverse.takeWhile (fun a => decide (¬ a = '\n'))).reverse

theorem lastLineAmended_nil : lastLineAmended [] = [] := rfl

theorem lastLineAmended_concat_ne (cs : List Char) (c : Char) (hc : ¬ c = '\n') :
    lastLineAmended (cs ++ [c]) = lastLineAmended cs ++ [c] := by
  unfold lastLineAmended
  rw [List.reverse_append]
  simp only [List.reverse_cons, List.reverse_nil, List.nil_append, List.singleton_append,
    List.takeWhile_cons]
  rw [if_pos (by simpa using hc)]
  simp

theorem lastLineAmended_of_getLast_newline (cs : List Char) (h : cs.getLast? = some '\n') :
    lastLineAmended cs = [] := by
  unfold lastLineAmended
  cases hrev : cs.reverse with
  | nil =>
    simp
  | cons a as =>
    have : cs.reverse.head? = some a := by rw [hrev]; rfl
    rw [List.head?_reverse] at this
    rw [h] at this
    have ha : a = '\n' := by injection this with h'; exact h'.symm
    subst ha
    rw [List.takeWhile_cons]
    rw [if_neg (by simp)]
    simp

theorem lastLineAmended_no_newline (cs : List Char) :
    ¬ (lastLineAmended cs).getLast? = some '\n' := by
  intro h
  have hmem : '\n' ∈ lastLineAmended cs := List.mem_of_mem_getLast? h
  rw [lastLineAmended, List.mem_reverse] at hmem
  have := List.mem_takeWhile_imp hmem
  simp at this

theorem snocLine_getLast?_none (lss : List (List Char)) (c : Char)
    (h : lss.getLast? = none) :
    (snocLine lss c).getLast? = some [c] := by
  rw [snocLine_getLast?, h]

theorem snocLine_getLast?_some (lss : List (List Char)) (c : Char) (l : List Char)
    (h : lss.getLast? = some l) :
    (snocLine lss c).getLast? =
      some (if l.getLast? = some '\n' then [c] else l ++ [c]) := by
  rw [snocLine_getLast?, h]

theorem linesKE_getLast?_spec (cs : List Char) (h : cs ≠ []) :
    (linesKE cs).getLast? =
      some (if cs.getLast? = some '\n'
            then lastLineAmended cs.dropLast ++ ['\n']
            else lastLineAmended cs) := by
  induction cs using List.reverseRecOn with
  | nil => exact absurd rfl h
  | append_singleton cs c ih =>
    rw [linesKE_concat]
    rw [List.getLast?_concat, List.dropLast_concat]
    by_cases hnil : cs = []
    · subst hnil
      rw [snocLine_getLast?_none _ c (by rw [linesKE_nil]; rfl)]
      by_cases hc : c = '\n'
      · subst hc
        simp [lastLineAmended]
      · rw [if_neg (by simpa using hc)]
        simp [lastLineAmended, hc]
    · rw [snocLine_getLast?_some _ c _ (ih hnil)]
      by_cases hE : cs.getLast? = some '\n'
      · rw [if_pos hE]
        rw [if_pos (List.getLast?_concat _)]
        rw [lastLineAmended_of_getLast_newline cs hE]
        by_cases hc : c = '\n'
        · subst hc
          rw [if_pos rfl]
          rfl
        · rw [if_neg (by simpa using hc)]
          rw [lastLineAmended_concat_ne cs c hc]
          rw [lastLineAmended_of_getLast_newline cs hE]
          rfl
      · rw [if_neg hE]
        rw [if_neg (lastLineAmended_no_newline cs)]
        by_cases hc : c = '\n'
        · subst hc
          rw [if_pos rfl]
        · rw [if_neg (by simpa using hc)]
          rw [lastLineAmended_concat_ne cs c hc]

/-- Literal compile-trigger marker from `_should_compile`. -/
def compileMarker : String := "-- compile-code"

/-- Trigger test applied to one cell's text, as `_should_compile` performs it
on `self._code[-1]`: iterate the cell's lines through a deque of maximal
length 1 (which therefore retains only the last yielded line, trailing
newline included) and compare that line with the marker; a cell with no lines
yields false. -/
def cellTriggers (cell : String) : Bool :=
  match (linesKE cell.data).getLast? with
  | none => false
  | some line => decide (line = compileMarker.data)

/-- Embedding of the `_should_compile` property: `none` models the
`AssertionError` raised by `assert self._code` when the pending buffer is
empty; otherwise the trigger test is applied to the most recently appended
cell `self._code[-1]`. -/
def _should_compile (code : List String) : Option Bool :=
  match code.getLast? with
  | none => none
  | some cell => some (cellTriggers cell)

/-- Display message published on the iopub socket, keyed by the single
mime-type entry of its data dictionary. -/
inductive Display where
  | html (content : String)
  | javascript (content : String)
deriving DecidableEq

/-- Embedding of `_send_error_result`: one `text/html` display wrapping the
message in a preformatted block. -/
def _send_error_result (msg : String) : Display :=
  Display.html ("<pre>" ++ msg ++ "</pre>")

/-- Container-element id `'elm-div-' + str(self.execution_count)`. -/
def div_id (execution_count : Nat) : String :=
  "elm-div-" ++ toString execution_count

/-- Fragment of the success template before the `js` insertion point. -/
def templateBeforeJs : String :=
  "\n            var defineElm = function(cb) \x7b\n                if (this.Elm) \x7b\n                    this.oldElm = this.Elm;\n                \x7d\n                var define = null;\n\n                "

/-- Fragment of the success template between the `js` and `div_id` insertion
points. -/
def templateAfterJs : String :=
  "\n\n                cb();\n            \x7d\n            ;\n\n            var obj = new Object();\n            defineElm.bind(obj)(function()\x7b\n                var mountNode = document.getElementById(\x27"

/-- Fragment of the success template between the `div_id` and `module_name`
insertion points. -/
def templateAfterDivId : String :=
  "\x27);\n                obj.Elm. "

/-- Fragment of the success template after the `module_name` insertion
point. -/
def templateAfterModule : String :=
  ".embed(mountNode);\n            \x7d);\n        "

/-- Result of `template.format(js=..., module_name=..., div_id=...)` in
`_send_success_result`. -/
def successScript (js module_name d : String) : String :=
  templateBeforeJs ++ js ++ templateAfterJs ++ d ++ templateAfterDivId
    ++ module_name ++ templateAfterModule

/-- Embedding of `_send_success_result`: the hard-coded module name, the
container `div` display and the `application/javascript` display, in emission
order. -/
def _send_success_result (javascript : String) (execution_count : Nat) : List Display :=
  [ Display.html ("<div id=\"" ++ div_id execution_count ++ "\"></div>"),
    Display.javascript (successScript javascript "Main" (div_id execution_count)) ]

/-- Exception value: `reprS` is Python's `repr(err)` (used by `_compile`'s
generic handler) and `strS` is `str(exc)` (used by `do_execute`'s handler). -/
structure Exc where
  reprS : String
  strS : String
deriving DecidableEq

/-- Observable behaviour of the `elm-make` subprocess invocation:
exit status zero with the text written to the output file, non-zero exit
with the captured combined stdout+stderr (a `CalledProcessError`), or an
invocation failure such as a missing binary (an arbitrary raised
exception). -/
inductive CompilerBehavior where
  | exitZero (outputWritten : String)
  | exitNonZero (captured : String)
  | raiseExc (e : Exc)
deriving DecidableEq

/-- Environment a single `do_execute` call runs in: whether
`elm-package.json` exists in the working directory, whether copying it fails
with a `PermissionError`, how the compiler subprocess behaves, and the name
of the scratch directory. -/
structure Env where
  manifestExists : Bool
  manifestCopyPermissionError : Bool
  compiler : CompilerBehavior
  tempdirName : String
deriving DecidableEq

/-- Embedding of `_copy_elm_package_file_to_tempdir`: returns the displays it
emits and whether the manifest file ends up copied into the scratch
directory. Absence of the manifest is an early no-op return; a
`PermissionError` during the copy is caught and reported as an error
display. -/
def _copy_elm_package_file_to_tempdir (env : Env) : List Display × Bool :=
  if env.manifestExists = false then ([], false)
  else if env.manifestCopyPermissionError = true then
    ([_send_error_result
        ("Permission error: could not copy elm-package.json to " ++ env.tempdirName)],
     false)
  else ([], true)

/-- Removal of a file from the scratch directory, `os.remove` under
`contextlib.suppress(OSError)`: deletes the path if present, does nothing
otherwise. -/
def os_remove (files : List String) (path : String) : List String :=
  files.erase path

/-- Result of one `_compile` call: the displays emitted (in order), the
exception propagating out of `_compile` if any, and the files left in the
scratch directory after both `_tempfile` context managers have run their
cleanup. -/
structure CompileResult where
  displays : List Display
  raised : Option Exc
  tempdirFiles : List String
deriving DecidableEq

/-- Embedding of `_compile`: copy the manifest, create `input.elm` with the
compilation unit, run `elm-make`; on exit zero read `index.js` and emit the
two success displays, on `CalledProcessError` emit one error display with the
captured output and swallow the error, on any other exception emit one error
display with the exception's repr and re-raise. The `_tempfile` context
managers remove `index.js` and `input.elm` on every exit path. -/
def _compile (env : Env) (execution_count : Nat) : CompileResult :=
  let copyDisplays := (_copy_elm_package_file_to_tempdir env).1
  let copied := (_copy_elm_package_file_to_tempdir env).2
  let files0 : List String := if copied then ["elm-package.json"] else []
  let files1 := files0 ++ ["input.elm"]
  match env.compiler with
  | CompilerBehavior.exitZero output =>
      { displays := copyDisplays ++ _send_success_result output execution_count,
        raised := none,
        tempdirFiles := os_remove (os_remove (files1 ++ ["index.js"]) "index.js") "input.elm" }
  | CompilerBehavior.exitNonZero captured =>
      { displays := copyDisplays ++ [_send_error_result captured],
        raised := none,
        tempdirFiles := os_remove (os_remove files1 "index.js") "input.elm" }
  | CompilerBehavior.raiseExc e =>
      { displays := copyDisplays ++ [_send_error_result e.reprS],
        raised := some e,
        tempdirFiles := os_remove (os_remove files1 "index.js") "input.elm" }

/-- Buffer and compiler-facing events of one `do_execute` call, in program
order: the unconditional append of the submitted cell, the clearing of the
pending buffer, and the invocation of the compile pipeline on the joined
compilation unit. -/
inductive KEvent where
  | appendCell (cell : String)
  | clearBuffer
  | invokeCompiler (unit : String)
deriving DecidableEq

/-- Observable outcome of one `do_execute` call: the returned status string,
the displays emitted (in order), the pending buffer `self._code` afterwards,
the buffer and compiler events in order, and the scratch-directory contents
after a triggered compile (`none` when no compile was attempted). -/
structure ExecOutcome where
  status : String
  displays : List Display
  codeAfter : List String
  events : List KEvent
  tempdirFiles : Option (List String)
deriving DecidableEq

/-- Embedding of `do_execute` for one submitted cell against a pending buffer:
append the cell, evaluate `_should_compile` (whose `AssertionError` on an
empty buffer is modelled as `none`), and when it fires join the buffer with
newlines, clear it, and run `_compile`, mapping a propagated exception to one
more error display and the `error` status, and every other path to `ok`. -/
def do_execute (code_buffer : List String) (cell : String) (env : Env)
    (execution_count : Nat) : Option ExecOutcome :=
  let buf := code_buffer ++ [cell]
  match _should_compile buf with
  | none => none
  | some false =>
      some { status := "ok", displays := [], codeAfter := buf,
             events := [KEvent.appendCell cell], tempdirFiles := none }
  | some true =>
      let unit := String.intercalate "\n" buf
      let r := _compile env execution_count
      match r.raised with
      | none =>
          some { status := "ok", displays := r.displays, codeAfter := [],
                 events := [KEvent.appendCell cell, KEvent.clearBuffer,
                            KEvent.invokeCompiler unit],
                 tempdirFiles := some r.tempdirFiles }
      | some e =>
          some { status := "error",
                 displays := r.displays ++ [_send_error_result e.strS],
                 codeAfter := [],
                 events := [KEvent.appendCell cell, KEvent.clearBuffer,
                            KEvent.invokeCompiler unit],
                 tempdirFiles := some r.tempdirFiles }

/-- Pending buffer contents after a sequence of cells has been submitted from
a fresh kernel, following `do_execute`'s buffer discipline for each cell in
turn. -/
def bufferAfter (cells : List String) : List String :=
  cells.foldl
    (fun buf c =>
      match _should_compile (buf ++ [c]) with
      | some true => []
      | _ => buf ++ [c])
    []

/-- Spec-side description of the expected buffer: the cells submitted since
the last trigger-firing cell, in order. -/
def sinceLastTrigger (cells : List String) : List String :=
  (cells.reverse.takeWhile (fun c => !cellTriggers c)).reverse

theorem cellTriggers_eq_decide (s : String) (h : s.data ≠ []) :
    cellTriggers s =
      decide ((if s.data.getLast? = some '\n'
               then lastLineAmended s.data.dropLast ++ ['\n']
               else lastLineAmended s.data) = compileMarker.data) := by
  unfold cellTriggers
  rw [linesKE_getLast?_spec s.data h]

theorem compileMarker_not_newline_terminated :
    ¬ compileMarker.data.getLast? = some '\n' := by
  decide

theorem cellTriggers_iff (s : String) :
    cellTriggers s = true ↔
      (s.data ≠ [] ∧ ¬ s.data.getLast? = some '\n' ∧
       lastLineAmended s.data = compileMarker.data) := by
  by_cases hnil : s.data = []
  · unfold cellTriggers
    rw [hnil, linesKE_nil]
    simp [hnil]
  · rw [cellTriggers_eq_decide s hnil]
    by_cases hE : s.data.getLast? = some '\n'
    · rw [if_pos hE]
      simp only [decide_eq_true_eq]
      constructor
      · intro hEq
        exfalso
        have h1 : (lastLineAmended s.data.dropLast ++ ['\n']).getLast? = some '\n' :=
          List.getLast?_concat _
        rw [hEq] at h1
        exact compileMarker_not_newline_terminated h1
      · rintro ⟨-, hne, -⟩
        exact absurd hE hne
    · rw [if_neg hE]
      simp only [decide_eq_true_eq]
      constructor
      · intro hEq
        exact ⟨hnil, hE, hEq⟩
      · rintro ⟨-, -, hEq⟩
        exact hEq

theorem cellTriggers_of_trailing_newline (s : String) (h : s.data.getLast? = some '\n') :
    cellTriggers s = false := by
  have hnil : s.data ≠ [] := by
    intro hx
    rw [hx] at h
    simp at h
  rw [cellTriggers_eq_decide s hnil, if_pos h]
  apply decide_eq_false
  intro hEq
  have h1 : (lastLineAmended s.data.dropLast ++ ['\n']).getLast? = some '\n' :=
    List.getLast?_concat _
  rw [hEq] at h1
  exact compileMarker_not_newline_terminated h1

theorem linesKE_last_of_trailing_newline (s : String) (h : s.data.getLast? = some '\n') :
    ∃ l, (linesKE s.data).getLast? = some l ∧ l.getLast? = some '\n' := by
  have hnil : s.data ≠ [] := by
    intro hx
    rw [hx] at h
    simp at h
  refine ⟨lastLineAmended s.data.dropLast ++ ['\n'], ?_, List.getLast?_concat _⟩
  rw [linesKE_getLast?_spec s.data hnil, if_pos h]

theorem _should_compile_concat (xs : List String) (c : String) :
    _should_compile (xs ++ [c]) = some (cellTriggers c) := by
  unfold _should_compile
  rw [List.getLast?_concat]

theorem _copy_displays_nil (env : Env)
    (h : env.manifestExists = false ∨ env.manifestCopyPermissionError = false) :
    (_copy_elm_package_file_to_tempdir env).1 = [] := by
  unfold _copy_elm_package_file_to_tempdir
  by_cases hm : env.manifestExists = false
  · rw [if_pos hm]
  · rw [if_neg hm]
    rcases h with h | h
    · exact absurd h hm
    · rw [if_neg (by rw [h]; simp)]

theorem _compile_exitNonZero (env : Env) (ec : Nat) (cap : String)
    (hc : env.compiler = CompilerBehavior.exitNonZero cap) :
    (_compile env ec).displays =
        (_copy_elm_package_file_to_tempdir env).1 ++ [_send_error_result cap] ∧
      (_compile env ec).raised = none := by
  unfold _compile
  rw [hc]
  exact ⟨rfl, rfl⟩

theorem _compile_exitZero (env : Env) (ec : Nat) (out : String)
    (hc : env.compiler = CompilerBehavior.exitZero out) :
    (_compile env ec).displays =
        (_copy_elm_package_file_to_tempdir env).1 ++ _send_success_result out ec ∧
      (_compile env ec).raised = none := by
  unfold _compile
  rw [hc]
  exact ⟨rfl, rfl⟩

theorem _compile_raiseExc (env : Env) (ec : Nat) (e : Exc)
    (hc : env.compiler = CompilerBehavior.raiseExc e) :
    (_compile env ec).displays =
        (_copy_elm_package_file_to_tempdir env).1 ++ [_send_error_result e.reprS] ∧
      (_compile env ec).raised = some e := by
  unfold _compile
  rw [hc]
  exact ⟨rfl, rfl⟩

theorem do_execute_no_trigger (state : List String) (cell : String) (env : Env) (ec : Nat)
    (h : cellTriggers cell = false) :
    do_execute state cell env ec =
      some { status := "ok", displays := [], codeAfter := state ++ [cell],
             events := [KEvent.appendCell cell], tempdirFiles := none } := by
  unfold do_execute
  simp only [_should_compile_concat, h]

theorem do_execute_trigger_no_raise (state : List String) (cell : String) (env : Env)
    (ec : Nat) (h : cellTriggers cell = true) (hr : (_compile env ec).raised = none) :
    do_execute state cell env ec =
      some { status := "ok", displays := (_compile env ec).displays, codeAfter := [],
             events := [KEvent.appendCell cell, KEvent.clearBuffer,
                        KEvent.invokeCompiler (String.intercalate "\n" (state ++ [cell]))],
             tempdirFiles := some (_compile env ec).tempdirFiles } := by
  unfold do_execute
  simp only [_should_compile_concat, h, hr]

theorem do_execute_trigger_raise (state : List String) (cell : String) (env : Env)
    (ec : Nat) (e : Exc) (h : cellTriggers cell = true)
    (hr : (_compile env ec).raised = some e) :
    do_execute state cell env ec =
      some { status := "error",
             displays := (_compile env ec).displays ++ [_send_error_result e.strS],
             codeAfter := [],
             events := [KEvent.appendCell cell, KEvent.clearBuffer,
                        KEvent.invokeCompiler (String.intercalate "\n" (state ++ [cell]))],
             tempdirFiles := some (_compile env ec).tempdirFiles } := by
  unfold do_execute
  simp only [_should_compile_concat, h, hr]

theorem bufferAfter_concat (cells : List String) (c : String) :
    bufferAfter (cells ++ [c]) =
      if cellTriggers c then [] else bufferAfter cells ++ [c] := by
  unfold bufferAfter
  simp only [List.foldl_concat, _should_compile_concat]
  cases hc : cellTriggers c
  · simp
  · simp

theorem bufferAfter_eq_sinceLastTrigger (cells : List String) :
    bufferAfter cells = sinceLastTrigger cells := by
  induction cells using List.reverseRecOn with
  | nil => rfl
  | append_singleton cells c ih =>
    rw [bufferAfter_concat]
    unfold sinceLastTrigger
    rw [List.reverse_append]
    simp only [List.reverse_cons, List.reverse_nil, List.nil_append, List.singleton_append,
      List.takeWhile_cons]
    cases hc : cellTriggers c
    · rw [if_neg (by simp [hc]), if_pos (by simp [hc])]
      rw [List.reverse_cons]
      rw [ih]
      rfl
    · rw [if_pos rfl, if_neg (by simp [hc])]
      rfl

theorem _compile_scratch_files_absent (env : Env) (ec : Nat) :
    ¬ "input.elm" ∈ (_compile env ec).tempdirFiles ∧
      ¬ "index.js" ∈ (_compile env ec).tempdirFiles := by
  obtain ⟨me, mp, comp, tn⟩ := env
  cases comp <;> cases me <;> cases mp <;>
    simp [_compile, _copy_elm_package_file_to_tempdir, os_remove, List.erase_cons]

theorem do_execute_trigger_result (state : List String) (cell : String) (env : Env)
    (ec : Nat) (r : ExecOutcome) (ht : cellTriggers cell = true)
    (h : do_execute state cell env ec = some r) :
    r.codeAfter = [] ∧
    r.events = [KEvent.appendCell cell, KEvent.clearBuffer,
                KEvent.invokeCompiler (String.intercalate "\n" (state ++ [cell]))] := by
  cases hr : (_compile env ec).raised with
  | none =>
    rw [do_execute_trigger_no_raise state cell env ec ht hr] at h
    injection h with h'
    rw [← h']
    exact ⟨rfl, rfl⟩
  | some e =>
    rw [do_execute_trigger_raise state cell env ec e ht hr] at h
    injection h with h'
    rw [← h']
    exact ⟨rfl, rfl⟩

/-- Environment of the compile-failure scenario: no manifest, compiler exits
non-zero with captured output `TYPE MISMATCH`. -/
def envNonZero : Env :=
  { manifestExists := false, manifestCopyPermissionError := false,
    compiler := CompilerBehavior.exitNonZero "TYPE MISMATCH",
    tempdirName := "/tmp/scratch" }

/-- Exception raised by `subprocess.run` when the `elm-make` binary is
missing. -/
def excMissing : Exc :=
  { reprS := "FileNotFoundError(2, \x27No such file or directory\x27)",
    strS := "[Errno 2] No such file or directory: \x27elm-make\x27" }

/-- Environment of the missing-compiler scenario. -/
def envMissingCompiler : Env :=
  { manifestExists := false, manifestCopyPermissionError := false,
    compiler := CompilerBehavior.raiseExc excMissing,
    tempdirName := "/tmp/scratch" }

/-- Environment of the success scenario: compiler exits zero and writes
`var x = 1;` to the output path. -/
def envSuccess : Env :=
  { manifestExists := false, manifestCopyPermissionError := false,
    compiler := CompilerBehavior.exitZero "var x = 1;",
    tempdirName := "/tmp/scratch" }

/-- Environment in which `elm-package.json` exists but copying it raises a
`PermissionError`. -/
def envPermError : Env :=
  { manifestExists := true, manifestCopyPermissionError := true,
    compiler := CompilerBehavior.exitZero "var x = 1;",
    tempdirName := "/tmp/scratch" }

/-- Outcome of submitting `-- compile-code` after `module Main` in
`envNonZero`. -/
def outNonZero : ExecOutcome :=
  { status := "ok",
    displays := [Display.html "<pre>TYPE MISMATCH</pre>"],
    codeAfter := [],
    events := [KEvent.appendCell "-- compile-code", KEvent.clearBuffer,
               KEvent.invokeCompiler "module Main\n-- compile-code"],
    tempdirFiles := some [] }

/-- Outcome of submitting a marker-only cell in `envMissingCompiler`. -/
def outMissing : ExecOutcome :=
  { status := "error",
    displays := [_send_error_result excMissing.reprS,
                 _send_error_result excMissing.strS],
    codeAfter := [],
    events := [KEvent.appendCell "-- compile-code", KEvent.clearBuffer,
               KEvent.invokeCompiler "-- compile-code"],
    tempdirFiles := some [] }

/-- Outcome of submitting a marker-only cell in `envSuccess` with execution
counter 7. -/
def outSuccess : ExecOutcome :=
  { status := "ok",
    displays := _send_success_result "var x = 1;" 7,
    codeAfter := [],
    events := [KEvent.appendCell "-- compile-code", KEvent.clearBuffer,
               KEvent.invokeCompiler "-- compile-code"],
    tempdirFiles := some [] }

/-- Spec-side definition following claim C1's words: the first line of a
cell, that is the text up to the first line break, or the whole cell if it
has none. -/
def firstLineSpec (s : String) : String :=
  String.mk (s.data.takeWhile (fun a => decide (¬ a = '\n')))

/-- C1 counterexample: the claim is false on the code. The cell
`"-- compile-code\nmodule Main exposing (..)"` has first line exactly
`-- compile-code` yet does NOT trigger, while
`"module Main\n-- compile-code"` has first line `module Main` yet DOES
trigger: `_should_compile` keeps only the last element of the line iterator
in its maxlen-1 deque, so it inspects the last line, not the first. -/
theorem C1_counterexample :
    firstLineSpec "-- compile-code\nmodule Main exposing (..)" = "-- compile-code" ∧
    cellTriggers "-- compile-code\nmodule Main exposing (..)" = false ∧
    firstLineSpec "module Main\n-- compile-code" = "module Main" ∧
    cellTriggers "module Main\n-- compile-code" = true := by
  refine ⟨by decide, by decide, by decide, by decide⟩

/-- C1 (amended): the trigger evaluator returns true iff the LAST line of the
most recently submitted cell is exactly the literal `-- compile-code`
(case-sensitive, no whitespace tolerance): equivalently, iff the cell is
nonempty, does not end with a line break, and the text after its final line
break (the whole cell when it has none) is exactly the marker. -/
theorem C1_trigger_last_line (s : String) :
    cellTriggers s = true ↔
      (s.data ≠ [] ∧ ¬ s.data.getLast? = some '\n' ∧
       lastLineAmended s.data = compileMarker.data) :=
  cellTriggers_iff s

/-- C2: for every execution in which the trigger fires, the pending buffer is
cleared before the external compiler is invoked (the events of the call are,
in order: append the cell, clear the buffer, invoke the compiler on the
joined unit) and after the triggered compile returns — success, compile
failure or infrastructure failure alike, i.e. for every environment — the
pending buffer `self._code` is empty. -/
theorem C2_buffer_cleared (state : List String) (cell : String) (env : Env)
    (ec : Nat) (r : ExecOutcome) (ht : cellTriggers cell = true)
    (h : do_execute state cell env ec = some r) :
    r.codeAfter = [] ∧
    r.events = [KEvent.appendCell cell, KEvent.clearBuffer,
                KEvent.invokeCompiler (String.intercalate "\n" (state ++ [cell]))] :=
  do_execute_trigger_result state cell env ec r ht h

/-- C2 witness: the compile-failure scenario with buffer `["module Main"]`
and the marker cell. -/
theorem C2_buffer_cleared_witness :
    outNonZero.codeAfter = [] ∧
    outNonZero.events = [KEvent.appendCell "-- compile-code", KEvent.clearBuffer,
                         KEvent.invokeCompiler
                           (String.intercalate "\n" (["module Main"] ++ ["-- compile-code"]))] :=
  C2_buffer_cleared ["module Main"] "-- compile-code" envNonZero 1 outNonZero
    (by decide) (by decide)

/-- C10: a submitted cell whose text ends with a line-break character never
triggers a compile — in particular the marker-only cell followed by a newline
does not — because the line the evaluator extracts retains its trailing
newline and is compared by exact equality against the marker. -/
theorem C10_trailing_newline (s : String) (h : s.data.getLast? = some '\n') :
    cellTriggers s = false ∧
    ∃ l, (linesKE s.data).getLast? = some l ∧ l.getLast? = some '\n' :=
  ⟨cellTriggers_of_trailing_newline s h, linesKE_last_of_trailing_newline s h⟩

/-- C10 witness: the marker-only cell text terminated by a newline. -/
theorem C10_trailing_newline_witness :
    cellTriggers "-- compile-code\n" = false ∧
    ∃ l, (linesKE "-- compile-code\n".data).getLast? = some l ∧
         l.getLast? = some '\n' :=
  C10_trailing_newline "-- compile-code\n" (by decide)

/-- C3 counterexample: the claim is false on the code. With a missing
compiler executable the execute call emits TWO display messages — `_compile`
sends the exception's repr, re-raises, and `do_execute`'s handler sends the
exception's str — and `do_execute` returns normally with status `error`
instead of propagating the exception to the host runtime. -/
theorem C3_counterexample :
    do_execute [] "-- compile-code" envMissingCompiler 1 = some outMissing ∧
    outMissing.displays.length = 2 ∧
    outMissing.status = "error" := by
  refine ⟨by decide, rfl, rfl⟩

/-- C3 (amended): on an infrastructure failure such as a missing compiler
executable (and with the manifest-copy step emitting no display), `_compile`
emits exactly one display carrying the exception's repr and re-raises the
exception to `do_execute`; `do_execute` catches it, emits a second display
carrying the exception's str, and returns status `error` to the host runtime
instead of propagating the exception — two displays in total. -/
theorem C3_infrastructure_failure (state : List String) (cell : String) (env : Env)
    (ec : Nat) (e : Exc) (r : ExecOutcome)
    (hc : env.compiler = CompilerBehavior.raiseExc e)
    (hm : env.manifestExists = false ∨ env.manifestCopyPermissionError = false)
    (ht : cellTriggers cell = true)
    (h : do_execute state cell env ec = some r) :
    (_compile env ec).displays = [_send_error_result e.reprS] ∧
    (_compile env ec).raised = some e ∧
    r.status = "error" ∧
    r.displays = [_send_error_result e.reprS, _send_error_result e.strS] := by
  obtain ⟨hd, hr⟩ := _compile_raiseExc env ec e hc
  rw [_copy_displays_nil env hm, List.nil_append] at hd
  rw [do_execute_trigger_raise state cell env ec e ht hr] at h
  injection h with h'
  subst h'
  refine ⟨hd, hr, rfl, ?_⟩
  show (_compile env ec).displays ++ [_send_error_result e.strS] = _
  rw [hd]
  rfl

/-- C3 witness: the missing-compiler scenario on a marker-only cell. -/
theorem C3_infrastructure_failure_witness :
    (_compile envMissingCompiler 1).displays = [_send_error_result excMissing.reprS] ∧
    (_compile envMissingCompiler 1).raised = some excMissing ∧
    outMissing.status = "error" ∧
    outMissing.displays = [_send_error_result excMissing.reprS,
                           _send_error_result excMissing.strS] :=
  C3_infrastructure_failure [] "-- compile-code" envMissingCompiler 1 excMissing
    outMissing rfl (Or.inl rfl) (by decide) (by decide)

/-- C4: when the compiler runs and exits non-zero (and the manifest-copy
step emits no display), the execute call emits exactly one display message,
the captured combined stdout+stderr wrapped in a preformatted block, does not
raise (`_compile` swallows the `CalledProcessError`), and returns status
`ok`. -/
theorem C4_compile_failure (state : List String) (cell : String) (env : Env)
    (ec : Nat) (cap : String) (r : ExecOutcome)
    (hc : env.compiler = CompilerBehavior.exitNonZero cap)
    (hm : env.manifestExists = false ∨ env.manifestCopyPermissionError = false)
    (ht : cellTriggers cell = true)
    (h : do_execute state cell env ec = some r) :
    r.status = "ok" ∧
    (_compile env ec).raised = none ∧
    r.displays = [Display.html ("<pre>" ++ cap ++ "</pre>")] := by
  obtain ⟨hd, hr⟩ := _compile_exitNonZero env ec cap hc
  rw [_copy_displays_nil env hm, List.nil_append] at hd
  rw [do_execute_trigger_no_raise state cell env ec ht hr] at h
  injection h with h'
  subst h'
  refine ⟨rfl, hr, ?_⟩
  show (_compile env ec).displays = _
  rw [hd]
  rfl

/-- C4 witness: the `TYPE MISMATCH` stub scenario. -/
theorem C4_compile_failure_witness :
    outNonZero.status = "ok" ∧
    (_compile envNonZero 1).raised = none ∧
    outNonZero.displays = [Display.html ("<pre>" ++ "TYPE MISMATCH" ++ "</pre>")] :=
  C4_compile_failure ["module Main"] "-- compile-code" envNonZero 1 "TYPE MISMATCH"
    outNonZero rfl (Or.inl rfl) (by decide) (by decide)

/-- C5: when the compiler exits zero and writes the script text to the output
path (and the manifest-copy step emits no display), the pipeline emits
exactly two display messages: first the container `div` whose id is
`elm-div-` followed by the execution counter, second an
`application/javascript` script that is the fixed template with the compiled
output text inserted verbatim between its fragments, whose trailing
fragments mount module `Main` into the container element by that same id
(`document.getElementById` on the id, then `.embed`). -/
theorem C5_success_two_displays (state : List String) (cell : String) (env : Env)
    (ec : Nat) (out : String) (r : ExecOutcome)
    (hc : env.compiler = CompilerBehavior.exitZero out)
    (hm : env.manifestExists = false ∨ env.manifestCopyPermissionError = false)
    (ht : cellTriggers cell = true)
    (h : do_execute state cell env ec = some r) :
    r.status = "ok" ∧
    r.displays.length = 2 ∧
    r.displays =
      [Display.html ("<div id=\"" ++ ("elm-div-" ++ toString ec) ++ "\"></div>"),
       Display.javascript
         (templateBeforeJs ++ out ++ templateAfterJs ++ ("elm-div-" ++ toString ec)
           ++ templateAfterDivId ++ "Main" ++ templateAfterModule)] := by
  obtain ⟨hd, hr⟩ := _compile_exitZero env ec out hc
  rw [_copy_displays_nil env hm, List.nil_append] at hd
  rw [do_execute_trigger_no_raise state cell env ec ht hr] at h
  injection h with h'
  subst h'
  refine ⟨rfl, ?_, ?_⟩
  · show ((_compile env ec).displays).length = 2
    rw [hd]
    rfl
  · show (_compile env ec).displays = _
    rw [hd]
    rfl

/-- C5 witness: the `var x = 1;` stub scenario at execution counter 7. -/
theorem C5_success_two_displays_witness :
    outSuccess.status = "ok" ∧
    outSuccess.displays.length = 2 ∧
    outSuccess.displays =
      [Display.html ("<div id=\"" ++ ("elm-div-" ++ toString 7) ++ "\"></div>"),
       Display.javascript
         (templateBeforeJs ++ "var x = 1;" ++ templateAfterJs
           ++ ("elm-div-" ++ toString 7)
           ++ templateAfterDivId ++ "Main" ++ templateAfterModule)] :=
  C5_success_two_displays [] "-- compile-code" envSuccess 7 "var x = 1;" outSuccess
    rfl (Or.inl rfl) (by decide) (by decide)

/-- C6: the pending buffer after any sequence of submitted cells consists of
exactly the cells submitted since the last trigger-firing cell, in order; and
when a cell fires, the compilation unit handed to the compiler is the
newline-joined concatenation of the buffered cells, the firing cell
included (it is appended before the trigger is evaluated). -/
theorem C6_buffer_history (cells : List String) (state : List String) (cell : String)
    (env : Env) (ec : Nat) (r : ExecOutcome)
    (ht : cellTriggers cell = true)
    (h : do_execute state cell env ec = some r) :
    bufferAfter cells = sinceLastTrigger cells ∧
    r.events = [KEvent.appendCell cell, KEvent.clearBuffer,
                KEvent.invokeCompiler (String.intercalate "\n" (state ++ [cell]))] :=
  ⟨bufferAfter_eq_sinceLastTrigger cells,
   (do_execute_trigger_result state cell env ec r ht h).2⟩

/-- C6 witness: a three-cell history whose middle cell fires, and the
compile-failure scenario for the unit fact. -/
theorem C6_buffer_history_witness :
    bufferAfter ["module Main", "-- compile-code", "main = x"] =
      sinceLastTrigger ["module Main", "-- compile-code", "main = x"] ∧
    outNonZero.events = [KEvent.appendCell "-- compile-code", KEvent.clearBuffer,
                         KEvent.invokeCompiler
                           (String.intercalate "\n" (["module Main"] ++ ["-- compile-code"]))] :=
  C6_buffer_history ["module Main", "-- compile-code", "main = x"] ["module Main"]
    "-- compile-code" envNonZero 1 outNonZero (by decide) (by decide)

/-- C7: on every exit path of a triggered compile — success, compile failure
and infrastructure failure alike, i.e. for every environment — the scratch
input file `input.elm` and the scratch output file `index.js` are absent from
the scratch directory once `_compile` returns: both `_tempfile` context
managers delete their file if present on the way out. -/
theorem C7_scratch_cleanup (env : Env) (ec : Nat) :
    ¬ "input.elm" ∈ (_compile env ec).tempdirFiles ∧
      ¬ "index.js" ∈ (_compile env ec).tempdirFiles :=
  _compile_scratch_files_absent env ec

/-- C8: when no manifest file exists the copy step is a no-op — no display,
no error, nothing copied; when the copy fails with a permission error, one
error display is emitted but the compile still proceeds exactly as it would
with no manifest: the remaining displays and the raised-exception behaviour
are identical to the manifest-less run, so the execute call is not
aborted. -/
theorem C8_manifest_copy (env1 env2 : Env) (ec : Nat)
    (h1 : env1.manifestExists = false)
    (h2 : env2.manifestExists = true)
    (h2p : env2.manifestCopyPermissionError = true) :
    _copy_elm_package_file_to_tempdir env1 = ([], false) ∧
    (_compile env2 ec).displays =
      _send_error_result
          ("Permission error: could not copy elm-package.json to " ++ env2.tempdirName)
        :: (_compile { env2 with manifestExists := false } ec).displays ∧
    (_compile env2 ec).raised =
      (_compile { env2 with manifestExists := false } ec).raised := by
  have hcopy2 : (_copy_elm_package_file_to_tempdir env2).1 =
      [_send_error_result
        ("Permission error: could not copy elm-package.json to " ++ env2.tempdirName)] := by
    unfold _copy_elm_package_file_to_tempdir
    rw [if_neg (by rw [h2]; simp), if_pos h2p]
  have hcopy1 : (_copy_elm_package_file_to_tempdir
      { env2 with manifestExists := false }).1 = [] :=
    _copy_displays_nil _ (Or.inl rfl)
  refine ⟨?_, ?_, ?_⟩
  · unfold _copy_elm_package_file_to_tempdir
    rw [if_pos h1]
  · cases hcomp : env2.compiler with
    | exitZero out =>
      obtain ⟨d2, -⟩ := _compile_exitZero env2 ec out hcomp
      obtain ⟨d1, -⟩ := _compile_exitZero
        { manifestExists := false,
          manifestCopyPermissionError := env2.manifestCopyPermissionError,
          compiler := CompilerBehavior.exitZero out,
          tempdirName := env2.tempdirName } ec out rfl
      rw [d2, d1, hcopy2, _copy_displays_nil _ (Or.inl rfl), List.nil_append]
      rfl
    | exitNonZero cap =>
      obtain ⟨d2, -⟩ := _compile_exitNonZero env2 ec cap hcomp
      obtain ⟨d1, -⟩ := _compile_exitNonZero
        { manifestExists := false,
          manifestCopyPermissionError := env2.manifestCopyPermissionError,
          compiler := CompilerBehavior.exitNonZero cap,
          tempdirName := env2.tempdirName } ec cap rfl
      rw [d2, d1, hcopy2, _copy_displays_nil _ (Or.inl rfl), List.nil_append]
      rfl
    | raiseExc e =>
      obtain ⟨d2, -⟩ := _compile_raiseExc env2 ec e hcomp
      obtain ⟨d1, -⟩ := _compile_raiseExc
        { manifestExists := false,
          manifestCopyPermissionError := env2.manifestCopyPermissionError,
          compiler := CompilerBehavior.raiseExc e,
          tempdirName := env2.tempdirName } ec e rfl
      rw [d2, d1, hcopy2, _copy_displays_nil _ (Or.inl rfl), List.nil_append]
      rfl
  · cases hcomp : env2.compiler with
    | exitZero out =>
      obtain ⟨-, r2⟩ := _compile_exitZero env2 ec out hcomp
      obtain ⟨-, r1⟩ := _compile_exitZero
        { manifestExists := false,
          manifestCopyPermissionError := env2.manifestCopyPermissionError,
          compiler := CompilerBehavior.exitZero out,
          tempdirName := env2.tempdirName } ec out rfl
      rw [r2, r1]
    | exitNonZero cap =>
      obtain ⟨-, r2⟩ := _compile_exitNonZero env2 ec cap hcomp
      obtain ⟨-, r1⟩ := _compile_exitNonZero
        { manifestExists := false,
          manifestCopyPermissionError := env2.manifestCopyPermissionError,
          compiler := CompilerBehavior.exitNonZero cap,
          tempdirName := env2.tempdirName } ec cap rfl
      rw [r2, r1]
    | raiseExc e =>
      obtain ⟨-, r2⟩ := _compile_raiseExc env2 ec e hcomp
      obtain ⟨-, r1⟩ := _compile_raiseExc
        { manifestExists := false,
          manifestCopyPermissionError := env2.manifestCopyPermissionError,
          compiler := CompilerBehavior.raiseExc e,
          tempdirName := env2.tempdirName } ec e rfl
      rw [r2, r1]

/-- C8 witness: no-manifest environment and permission-error environment. -/
theorem C8_manifest_copy_witness :
    _copy_elm_package_file_to_tempdir envSuccess = ([], false) ∧
    (_compile envPermError 3).displays =
      _send_error_result
          ("Permission error: could not copy elm-package.json to " ++ envPermError.tempdirName)
        :: (_compile { envPermError with manifestExists := false } 3).displays ∧
    (_compile envPermError 3).raised =
      (_compile { envPermError with manifestExists := false } 3).raised :=
  C8_manifest_copy envSuccess envPermError 3 rfl rfl rfl

/-- C9: evaluating the trigger on an empty buffer is the fatal
`AssertionError` (modelled as `none`), and under `do_execute`'s calling
discipline — the submitted cell is appended before the trigger is evaluated,
so the buffer evaluated is always of the form `state ++ [cell]` — the
assertion is unreachable: the evaluation always succeeds, and every
`do_execute` call returns a result rather than dying on the assertion. -/
theorem C9_assert_unreachable :
    _should_compile [] = none ∧
    (∀ (state : List String) (cell : String),
      _should_compile (state ++ [cell]) = some (cellTriggers cell)) ∧
    (∀ (state : List String) (cell : String) (env : Env) (ec : Nat),
      (do_execute state cell env ec).isSome = true) := by
  refine ⟨rfl, fun state cell => _should_compile_concat state cell, ?_⟩
  intro state cell env ec
  cases hc : cellTriggers cell
  · rw [do_execute_no_trigger state cell env ec hc]
    rfl
  · cases hr : (_compile env ec).raised with
    | none =>
      rw [do_execute_trigger_no_raise state cell env ec hc hr]
      rfl
    | some e =>
      rw [do_execute_trigger_raise state cell env ec e hc hr]
      rfl
